import Mathlib

/-!
Verification of the Utah housing data-cleaning library
(repository `sethfrand/Stat_386_final_project`).

The development shallowly embeds the Python sources:
* `src/src/utah_housing_stat386/cleaning.py` — the canonical cleaning
  library (namespace `Cleaning`);
* `src/cleaning.py` — the legacy root-level cleaning module
  (namespace `LegacyCleaning`);
* `src/streamlit_app.py` — the analysis dashboard's derived-metric
  computation (namespace `StreamlitApp`);
* `src/src/utah_housing_stat386/demo.py` — the demo-data loader
  (namespace `Demo`).

Modelling conventions:
* Python cell values are `PyVal`: a string, a float (modelled as `ℚ`,
  exact rational arithmetic standing in for IEEE doubles), an int
  (modelled as `ℤ`; Python ints are unbounded), or the missing marker
  `vNan` (covering both `None` and `float(` ++ "'nan'" ++ `)`, which
  `pd.isnull` treats alike).
* A function that can raise an unhandled exception returns `PyResult`;
  `PyResult.exn` records the exception class name.
* `re`-module operations on the character classes the sources use
  (`[$,\s]`, `[,\s]`, `[\d.]+`, `\d+`, `\s+`, `,\s*,`) are embedded
  directly as list-of-character transformations.
* `float(...)` / `int(...)` literal parsing is embedded for decimal
  literals with optional sign, fraction and exponent — every literal the
  repository's data paths produce.  The special spellings `inf`,
  `infinity` and `nan` and underscore separators are treated as
  unparsable (no claim depends on them).
* A pandas `DataFrame` is a column-name list plus rows of
  (column, value) association lists; pandas indexes cells by column
  name, which the association lists mirror.
-/

/-- A Python value as it appears in a cell or as a cleaner argument. -/
inductive PyVal : Type where
  | vStr : String → PyVal
  | vFloat : ℚ → PyVal
  | vInt : ℤ → PyVal
  | vNan : PyVal
deriving Repr, DecidableEq

/-- Outcome of calling a Python function: a returned value, or an
unhandled exception (tagged with the exception class name). -/
inductive PyResult : Type where
  | ok : PyVal → PyResult
  | exn : String → PyResult
deriving Repr, DecidableEq

deriving instance DecidableEq for Except

/-- Python whitespace characters matched by the regex class octet `\s`
(space, tab, newline, carriage return, vertical tab, form feed). -/
def isPySpace (c : Char) : Bool :=
  c = ' ' || c = '\t' || c = '\n' || c = '\r' || c = Char.ofNat 11 || c = Char.ofNat 12

/-- Characters matched by the regex class `[\d.]`. -/
def isDigitOrDot (c : Char) : Bool :=
  c.isDigit || c = '.'

/-- Remove every character satisfying `p` — models `re.sub(r"[class]", "", s)`
for a single-character class. -/
def stripChars (p : Char → Bool) (s : List Char) : List Char :=
  s.filter (fun c => !p c)

/-- Drop the characters satisfying `p` from both ends — models
`str.strip()` (with `isPySpace`) and `str.strip(",")` (with `(· = ',')`). -/
def stripEnds (p : Char → Bool) (s : List Char) : List Char :=
  ((s.dropWhile p).reverse.dropWhile p).reverse

/-- Lower-case every character — models `str.lower()` on ASCII data. -/
def toLowerChars (s : List Char) : List Char :=
  s.map Char.toLower

/-- Maximal runs of characters satisfying `p` — models
`re.findall(r"[class]+", s)` for a single-character class. -/
def findRuns (p : Char → Bool) : List Char → List (List Char)
  | [] => []
  | [c] => if p c then [[c]] else []
  | c :: c2 :: rest =>
    if p c then
      if p c2 then
        match findRuns p (c2 :: rest) with
        | r :: rs => (c :: r) :: rs
        | [] => [[c]]
      else [c] :: findRuns p (c2 :: rest)
    else findRuns p (c2 :: rest)

/-- Replace each maximal run of whitespace by a single space — models
`re.sub(r"\s+", " ", s)`. -/
def collapseWs : List Char → List Char
  | [] => []
  | [c] => if isPySpace c then [' '] else [c]
  | c :: c2 :: rest =>
    if isPySpace c then
      if isPySpace c2 then collapseWs (c2 :: rest)
      else ' ' :: collapseWs (c2 :: rest)
    else c :: collapseWs (c2 :: rest)

/-- After an opening comma: greedily skip `\s*`, then require a second
comma, returning the remainder of the string after it.  Helper for the
`,\s*,` substitution. -/
def matchSpacesThenComma : List Char → Option (List Char)
  | [] => none
  | c :: rest =>
    if c = ',' then some rest
    else if isPySpace c then matchSpacesThenComma rest
    else none

/-- Fuel-driven worker for `subDoubleComma`; the fuel only bounds the
recursion (each step consumes at least one character, so `l.length`
fuel is never exhausted). -/
def subDoubleCommaFuel : ℕ → List Char → List Char
  | 0, l => l
  | _ + 1, [] => []
  | fuel + 1, c :: rest =>
    if c = ',' then
      match matchSpacesThenComma rest with
      | some rest' => ',' :: subDoubleCommaFuel fuel rest'
      | none => ',' :: subDoubleCommaFuel fuel rest
    else c :: subDoubleCommaFuel fuel rest

/-- Left-to-right, non-overlapping replacement of `,\s*,` by `,` — models
`re.sub(r",\s*,", ",", s)`: the pattern consumes both commas and Python
resumes scanning after the replacement. -/
def subDoubleComma (l : List Char) : List Char :=
  subDoubleCommaFuel l.length l

/-- Whether `needle` occurs as a contiguous substring of `hay` — models
Python's `needle in hay` on strings. -/
def containsSub (needle hay : List Char) : Bool :=
  (List.range (hay.length + 1)).any (fun i => needle.isPrefixOf (hay.drop i))

/-- The natural number denoted by a list of decimal digits (most
significant first), as Python's `int` reads an all-digit token. -/
def digitsToNat (l : List Char) : ℕ :=
  l.foldl (fun a c => 10 * a + (c.toNat - 48)) 0

/-- Parse an unsigned decimal mantissa — digits, an optional single dot,
and at least one digit overall (`"1"`, `"1."`, `".5"`, `"1.25"`). -/
def parseMantissa (l : List Char) : Option ℚ :=
  let intPart := l.takeWhile Char.isDigit
  let rest := l.drop intPart.length
  match rest with
  | [] => if intPart.isEmpty then none else some (digitsToNat intPart)
  | '.' :: frac =>
    if frac.all Char.isDigit then
      if intPart.isEmpty && frac.isEmpty then none
      else some ((digitsToNat intPart : ℚ) + (digitsToNat frac : ℚ) / (10 : ℚ) ^ frac.length)
    else none
  | _ => none

/-- Parse an optionally signed run of decimal digits as an integer —
the exponent part of a float literal, and the body of `int(...)`. -/
def parseSignedDigits (l : List Char) : Option ℤ :=
  match l with
  | '+' :: ds =>
    if !ds.isEmpty && ds.all Char.isDigit then some (digitsToNat ds) else none
  | '-' :: ds =>
    if !ds.isEmpty && ds.all Char.isDigit then some (-(digitsToNat ds : ℤ)) else none
  | ds =>
    if !ds.isEmpty && ds.all Char.isDigit then some (digitsToNat ds) else none

/-- Mantissa with an optional `e`/`E` exponent. -/
def parseFloatBody (l : List Char) : Option ℚ :=
  let m := l.takeWhile (fun c => !(c = 'e' || c = 'E'))
  let r := l.drop m.length
  match r with
  | [] => parseMantissa m
  | _ :: expPart =>
    (parseMantissa m).bind fun q =>
      (parseSignedDigits expPart).map fun e => q * (10 : ℚ) ^ e

/-- Python `float(token)` on a decimal literal: surrounding whitespace
ignored, optional sign, mantissa, optional exponent; `none` models the
`ValueError` Python raises on anything else. -/
def pyFloatOfChars (l : List Char) : Option ℚ :=
  let t := stripEnds isPySpace l
  match t with
  | '+' :: rest => parseFloatBody rest
  | '-' :: rest => (parseFloatBody rest).map Neg.neg
  | _ => parseFloatBody t

/-- Python `int(token)` on a string: surrounding whitespace ignored,
optional sign, decimal digits only; `none` models `ValueError`. -/
def pyIntOfChars (l : List Char) : Option ℤ :=
  parseSignedDigits (stripEnds isPySpace l)

/-- Truncation of a rational toward zero — Python `int(float)`. -/
def ratTrunc (q : ℚ) : ℤ :=
  if 0 ≤ q then ⌊q⌋ else ⌈q⌉

/-- Smallest `k` with `d ∣ 10 ^ k`, when one exists (`d` a product of
twos and fives); searching up to `d` suffices since `2 ^ a > a`. -/
def decExponent (d : ℕ) : Option ℕ :=
  (List.range (d + 1)).findSome? (fun k => if d ∣ 10 ^ k then some k else none)

/-- Decimal digit characters of `n`, most significant first. -/
def natDigitChars (n : ℕ) : List Char :=
  Nat.toDigits 10 n

/-- Python `str()` on a float value, for rationals with an exact finite
decimal expansion (every IEEE double has one): renders sign, integer
part, a dot and the fractional digits, e.g. `"0.1"`, `"1.0"`, `"-2.5"`.
Rationals with other denominators (which no Python float equals) fall
back to a `num/den` rendering. -/
def floatRepr (q : ℚ) : List Char :=
  let sign : List Char := if q < 0 then ['-'] else []
  match decExponent q.den with
  | some k =>
    let scaled := q.num.natAbs * (10 ^ k / q.den)
    let ip := scaled / 10 ^ k
    let fr := scaled % 10 ^ k
    let frDigits := natDigitChars fr
    let padded := List.replicate (k - frDigits.length) '0' ++ frDigits
    sign ++ natDigitChars ip ++ ['.'] ++ (if k = 0 then ['0'] else padded)
  | none => sign ++ natDigitChars q.num.natAbs ++ ['/'] ++ natDigitChars q.den

/-- Python `str()` on an int value. -/
def intRepr (n : ℤ) : List Char :=
  (if n < 0 then ['-'] else []) ++ natDigitChars n.natAbs

/-- Python `str(value)`: identity on strings, decimal rendering of
numbers, and `"nan"` for the missing marker (`str(float(` ++ "'nan'" ++ `))`). -/
def pyStr (v : PyVal) : List Char :=
  match v with
  | .vStr s => s.data
  | .vFloat q => floatRepr q
  | .vInt n => intRepr n
  | .vNan => ['n', 'a', 'n']

/-- Python `int(value)` applied to a non-string, non-missing value or a
string: parse strings, truncate floats toward zero; `none` models
`ValueError` (which `int` raises on bad strings and on NaN). -/
def pyIntVal (v : PyVal) : Option ℤ :=
  match v with
  | .vStr s => pyIntOfChars s.data
  | .vFloat q => some (ratTrunc q)
  | .vInt n => some n
  | .vNan => none

/-! ## The canonical cleaning library
Embedding of `src/src/utah_housing_stat386/cleaning.py`, one Lean
definition per Python function, keeping the source's names.  Every
cleaner returns a `PyResult`; the embedding produces `PyResult.exn`
exactly at the points where the Python can raise an unhandled
exception. -/

namespace Cleaning

/-- Embeds `check_is_nan`: `pd.isnull(value) or value == ""`. -/
def check_is_nan (value : PyVal) : Bool :=
  match value with
  | .vNan => true
  | .vStr s => s = ""
  | _ => false

/-- Characters of the regex class `[$,\s]` stripped by `clean_price`. -/
def isPriceStripChar (c : Char) : Bool :=
  c = '$' || c = ',' || isPySpace c

/-- Characters of the regex class `[,\s]` stripped by `clean_numeric_field`. -/
def isNumericStripChar (c : Char) : Bool :=
  c = ',' || isPySpace c

/-- Embeds `clean_price`: strip `[$,\s]`, then `float(...)` inside a bare
`try/except` that degrades any failure to `np.nan`. -/
def clean_price (price_str : PyVal) : PyResult :=
  if check_is_nan price_str then .ok .vNan
  else
    let clean := stripChars isPriceStripChar (pyStr price_str)
    match pyFloatOfChars clean with
    | some q => .ok (.vFloat q)
    | none => .ok .vNan

/-- Embeds `clean_numeric_field`: strip `[,\s]`, then `float(...)` with
`except ValueError` degrading to `np.nan`. -/
def clean_numeric_field (value : PyVal) : PyResult :=
  if check_is_nan value then .ok .vNan
  else
    let cleaned := stripChars isNumericStripChar (pyStr value)
    match pyFloatOfChars cleaned with
    | some q => .ok (.vFloat q)
    | none => .ok .vNan

/-- Embeds `clean_year_built`; `currentYear` stands for
`datetime.now().year`, read at call time.  `int(...)` failures
(`ValueError`) are caught and degrade to `np.nan`. -/
def clean_year_built (currentYear : ℤ) (year_built : PyVal) : PyResult :=
  if check_is_nan year_built then .ok .vNan
  else
    match pyIntVal year_built with
    | none => .ok .vNan
    | some year =>
      if 1800 ≤ year ∧ year ≤ currentYear + 2 then .ok (.vInt year) else .ok .vNan

/-- Embeds `clean_lot_size`: lower-case and trim, find `[\d.]+` runs,
convert the first with `float(...)` — this call is NOT inside a
`try/except`, so a run that is not a float literal (for example `"."`)
raises an unhandled `ValueError` — then branch on the units substrings. -/
def clean_lot_size (lot_size_str : PyVal) : PyResult :=
  if check_is_nan lot_size_str then .ok .vNan
  else
    let s := stripEnds isPySpace (toLowerChars (pyStr lot_size_str))
    match findRuns isDigitOrDot s with
    | [] => .ok .vNan
    | tok :: _ =>
      match pyFloatOfChars tok with
      | none => .exn "ValueError"
      | some value =>
        if containsSub "ac".data s || containsSub "acre".data s then
          .ok (.vFloat value)
        else if containsSub "sq".data s || containsSub "ft".data s then
          .ok (.vFloat (value / 43560))
        else
          .ok (.vFloat value)

/-- Embeds `clean_garage`: first `\d+` run as an unbounded Python int,
defaulting to `0` for missing input or no digits. -/
def clean_garage (garage_str : PyVal) : PyResult :=
  if check_is_nan garage_str then .ok (.vInt 0)
  else
    match findRuns Char.isDigit (pyStr garage_str) with
    | [] => .ok (.vInt 0)
    | tok :: _ => .ok (.vInt (digitsToNat tok))

/-- Embeds `clean_address`: collapse whitespace runs, trim, collapse
`,\s*,` to `,`, strip commas then whitespace from the ends. -/
def clean_address (address_str : PyVal) : PyResult :=
  if check_is_nan address_str then .ok .vNan
  else
    let c1 := stripEnds isPySpace (collapseWs (pyStr address_str))
    let c2 := subDoubleComma c1
    let c3 := stripEnds isPySpace (stripEnds (· = ',') c2)
    .ok (.vStr (String.mk c3))

/-- Embeds `clean_city`: lower-case and trim. -/
def clean_city (city_str : PyVal) : PyResult :=
  if check_is_nan city_str then .ok .vNan
  else .ok (.vStr (String.mk (stripEnds isPySpace (toLowerChars (pyStr city_str)))))

end Cleaning

/-! ## The table model
A pandas `DataFrame` as the cleaning pipeline uses it: an ordered list
of column names plus rows, each row an association list from column
name to cell value (pandas addresses cells by column name).  A frame is
well formed when every row carries exactly the frame's columns. -/

/-- One row: column name to cell value, in column order. -/
abbrev Row := List (String × PyVal)

/-- The cell of `r` in column `c` (`vNan` when the column is absent,
matching pandas' missing marker). -/
def Row.cell (r : Row) (c : String) : PyVal :=
  match r with
  | [] => .vNan
  | (k, v) :: rest => if k = c then v else Row.cell rest c

/-- Whether the row carries column `c` at all. -/
def Row.hasCol (r : Row) (c : String) : Bool :=
  match r with
  | [] => false
  | (k, _) :: rest => k = c || Row.hasCol rest c

/-- Replace the value at column `c` (first occurrence), keeping the
column set unchanged — pandas column assignment on an existing column. -/
def Row.setCell (c : String) (v : PyVal) : Row → Row
  | [] => []
  | (k, w) :: rest => if k = c then (k, v) :: rest else (k, w) :: Row.setCell c v rest

/-- Remove column `c` from a row — pandas `drop(columns=[c])` row-wise. -/
def Row.dropCell (c : String) : Row → Row
  | [] => []
  | (k, w) :: rest => if k = c then rest else (k, w) :: Row.dropCell c rest

/-- A pandas data frame. -/
structure DataFrame where
  cols : List String
  rows : List Row
deriving Repr, DecidableEq

/-- Every row of the frame carries exactly the frame's columns. -/
def DataFrame.Wf (df : DataFrame) : Prop :=
  ∀ r ∈ df.rows, r.map Prod.fst = df.cols

instance (df : DataFrame) : Decidable df.Wf := by
  unfold DataFrame.Wf; infer_instance

/-- Pandas `notna` on one cell. -/
def pyNotna (v : PyVal) : Bool :=
  v ≠ .vNan

/-- Pandas `series > 0` on one cell of a numeric column (`NaN > 0` is
false; a string cell would raise in pandas and never occurs in the
numeric columns the pipeline compares, see `numericOrNan`). -/
def pyGtZero (v : PyVal) : Bool :=
  match v with
  | .vFloat q => 0 < q
  | .vInt n => 0 < n
  | _ => false

/-- The cell is a number or the missing marker — what a pandas numeric
(float/int) column can hold. -/
def numericOrNan (v : PyVal) : Bool :=
  match v with
  | .vFloat _ => true
  | .vInt _ => true
  | .vNan => true
  | .vStr _ => false

namespace Cleaning

/-- The value a `PyResult` returned (junk `vNan` for an exception;
only used where the call is known not to raise). -/
def okValue : PyResult → PyVal
  | .ok v => v
  | .exn _ => .vNan

/-- Apply cleaner `f` to column `c` of every row — `df[c].apply(f)`
followed by assignment.  Pandas materialises the new series row by row,
so the first raising cell aborts the whole statement: the embedding
returns `Except.error` then. -/
def applyCells (f : PyVal → PyResult) (c : String) : List Row → Except String (List Row)
  | [] => .ok []
  | r :: rs =>
    match f (Row.cell r c) with
    | .exn e => .error e
    | .ok v => (applyCells f c rs).map (fun rs' => Row.setCell c v r :: rs')

/-- One guarded step of `clean_housing_data`:
`if c in df.columns: df[c] = df[c].apply(f)`. -/
def cleanStep (c : String) (f : PyVal → PyResult) (df : DataFrame) : Except String DataFrame :=
  if c ∈ df.cols then
    (applyCells f c df.rows).map (fun rows' => { df with rows := rows' })
  else .ok df

/-- Drop column `c` — `df.drop(columns=[c])`. -/
def dropColumn (c : String) (df : DataFrame) : DataFrame :=
  { cols := df.cols.erase c, rows := df.rows.map (Row.dropCell c) }

/-- Embeds `clean_housing_data`: copy the frame, drop `agent` if
present, then apply each field cleaner column-wise when its column is
present, in the source's order.  `currentYear` is `datetime.now().year`
as read inside `clean_year_built`. -/
def clean_housing_data (currentYear : ℤ) (df : DataFrame) : Except String DataFrame := do
  let d := if "agent" ∈ df.cols then dropColumn "agent" df else df
  let d ← cleanStep "price" clean_price d
  let d ← cleanStep "beds" clean_numeric_field d
  let d ← cleanStep "baths" clean_numeric_field d
  let d ← cleanStep "sqft" clean_numeric_field d
  let d ← cleanStep "year_built" (clean_year_built currentYear) d
  let d ← cleanStep "lot_size" clean_lot_size d
  let d ← cleanStep "garage" clean_garage d
  let d ← cleanStep "address" clean_address d
  let d ← cleanStep "city" clean_city d
  pure d

/-- The key of a row under `drop_duplicates(subset)`: its cells in the
subset columns (pandas treats two NaN keys as equal duplicates, as does
equality on `PyVal`). -/
def rowKey (subset : List String) (r : Row) : List PyVal :=
  subset.map (Row.cell r)

/-- First-occurrence deduplication by key, `seen` holding the keys of
rows already kept. -/
def dedupFirst (key : Row → List PyVal) (seen : List (List PyVal)) :
    List Row → List Row
  | [] => []
  | r :: rest =>
    if key r ∈ seen then dedupFirst key seen rest
    else r :: dedupFirst key (key r :: seen) rest

/-- Embeds `remove_duplicates`: `df.drop_duplicates(subset=subset,
keep="first")`; the source's default subset is `["mls"]`. -/
def remove_duplicates (subset : List String) (df : DataFrame) : DataFrame :=
  { df with rows := dedupFirst (rowKey subset) [] df.rows }

/-- One step of the `remove_invalid_entries` loop: keep rows with a
non-missing `field`, and for `price` additionally require `price > 0`. -/
def invalidStep (df : DataFrame) (field : String) : DataFrame :=
  if field ∈ df.cols then
    let d1 := { df with rows := df.rows.filter (fun r => pyNotna (Row.cell r field)) }
    if field = "price" then
      { d1 with rows := d1.rows.filter (fun r => pyGtZero (Row.cell r "price")) }
    else d1
  else df

/-- Embeds `remove_invalid_entries`: the loop over the critical fields
`mls`, `price`, `address`. -/
def remove_invalid_entries (df : DataFrame) : DataFrame :=
  ["mls", "price", "address"].foldl invalidStep df

/-- What `get_cleaned_data` produces: the clean table (`"pandas"`), or
a CSV write — modelled as the destination path, the frame written and
the returned confirmation message (`"csv"`). -/
inductive GetCleanedResult : Type where
  | table : DataFrame → GetCleanedResult
  | savedCsv : String → DataFrame → String → GetCleanedResult
deriving Repr, DecidableEq

/-- Modelled from the spec: the scraper `get_data` lives in
`utah_housing_stat386/core.py`, which is not among the repository's
source files; per spec §4.3 it returns a raw listing table for the
requested cities.  The embedding takes that raw table (`df_raw`) as an
argument in its place. -/
def get_cleaned_data (currentYear : ℤ) (df_raw : DataFrame) (output : String) :
    Except String GetCleanedResult := do
  let df_clean ← clean_housing_data currentYear df_raw
  let df_clean := remove_duplicates ["mls"] (remove_invalid_entries df_clean)
  if output = "pandas" then
    pure (.table df_clean)
  else if output = "csv" then
    pure (.savedCsv "utah_housing_data_cleaned.csv" df_clean
      "Data saved to utah_housing_data_cleaned.csv")
  else
    throw "ValueError: Invalid output option"

end Cleaning

/-! ## The legacy root-level cleaning module
Embedding of `src/cleaning.py`, restricted to the functions the claims
touch.  Its `check_is_nan` returns `np.nan` when the value is missing
and falls off the end (returning `None`) otherwise; every caller in the
module discards this result, so the missing-check is inert. -/

namespace LegacyCleaning

/-- Embeds the legacy `check_is_nan`: `np.nan` when missing, `None`
otherwise — both rendered `vNan` in the model; callers discard it. -/
def check_is_nan (value : PyVal) : PyVal :=
  match value with
  | .vNan => .vNan
  | .vStr _ => .vNan
  | _ => .vNan

/-- Embeds the legacy `clea_lot_size` (sic): the `check_is_nan` call is
discarded, the local variable is reassigned to the lower-cased, trimmed
string, and the `"ac"`/`"acre"` branch returns that string itself
(`lot_size_str`) instead of the parsed number — while the `"sq"`/`"ft"`
branch returns `value / 43560` like the canonical module. -/
def clea_lot_size (lot_size_str : PyVal) : PyResult :=
  let s := stripEnds isPySpace (toLowerChars (pyStr lot_size_str))
  match findRuns isDigitOrDot s with
  | [] => .ok .vNan
  | tok :: _ =>
    match pyFloatOfChars tok with
    | none => .exn "ValueError"
    | some value =>
      if containsSub "ac".data s || containsSub "acre".data s then
        .ok (.vStr (String.mk s))
      else if containsSub "sq".data s || containsSub "ft".data s then
        .ok (.vFloat (value / 43560))
      else
        .ok (.vFloat value)

end LegacyCleaning

/-! ## The analysis dashboard's derived metric
Embedding of the data-frame computation shared by
`create_price_per_sqft_scatter` (`src/streamlit_app.py` lines 74-78)
and the single-city branch of `main` (lines 294-297):
`dropna(subset=["sqft", "price"])`, keep `sqft > 0`, then assign
`price_per_sqft = price / sqft`.  Only the table transformation is
embedded; the plotly figure built from it is presentation. -/

namespace StreamlitApp

/-- Pandas float division of two numeric cells (the filtered rows both
columns are numeric and `sqft` is nonzero, so the rational quotient is
the model of the float quotient). -/
def pyDiv (a b : PyVal) : PyVal :=
  match a, b with
  | .vFloat x, .vFloat y => .vFloat (x / y)
  | .vFloat x, .vInt m => .vFloat (x / (m : ℚ))
  | .vInt n, .vFloat y => .vFloat ((n : ℚ) / y)
  | .vInt n, .vInt m => .vFloat ((n : ℚ) / (m : ℚ))
  | _, _ => .vNan

/-- Assign column `c` of a row: replace it when present, append it
otherwise — pandas `df[c] = series` row-wise. -/
def Row.assign (c : String) (v : PyVal) (r : Row) : Row :=
  if Row.hasCol r c then Row.setCell c v r else r ++ [(c, v)]

/-- Embeds the `price_per_sqft` derivation of
`create_price_per_sqft_scatter` (and, identically, of `main`). -/
def price_per_sqft_table (df : DataFrame) : DataFrame :=
  let keep := fun (r : Row) => pyNotna (Row.cell r "sqft") && pyNotna (Row.cell r "price")
  let d1 := { df with rows := df.rows.filter keep }
  let d2 := { d1 with rows := d1.rows.filter (fun r => pyGtZero (Row.cell r "sqft")) }
  { cols := if "price_per_sqft" ∈ d2.cols then d2.cols else d2.cols ++ ["price_per_sqft"],
    rows := d2.rows.map (fun r =>
      Row.assign "price_per_sqft" (pyDiv (Row.cell r "price") (Row.cell r "sqft")) r) }

end StreamlitApp

/-! ## The demo-data loader
Embedding of `load_demo_data` in `src/src/utah_housing_stat386/demo.py`.
The module binds `pkg_resources` by `from importlib import resources as
pkg_resources` (the real `pkg_resources` import is commented out), then
calls `pkg_resources.resource_filename(...)` inside a bare
`try/except` whose handler fetches a fixed GitHub URL. -/

namespace Demo

/-- The public attributes of Python's `importlib.resources` module
(stdlib docs; stable across the 3.x versions the package supports).
`resource_filename` is a setuptools `pkg_resources` API and has never
been one of them. -/
def importlibResourcesAttrs : List String :=
  ["Package", "Resource", "as_file", "contents", "files", "is_resource",
   "open_binary", "open_text", "path", "read_binary", "read_text"]

/-- Python attribute access `module.name`: the attribute, or an
`AttributeError` (modelled by `Except.error`). -/
def getattrOf (attrs : List String) (name : String) : Except String String :=
  if name ∈ attrs then .ok name else .error "AttributeError"

/-- Where `load_demo_data` read its data from. -/
inductive DemoSource : Type where
  | packaged : String → DemoSource
  | remote : String → DemoSource
deriving Repr, DecidableEq

/-- The fallback URL hard-coded in `load_demo_data`. -/
def demoDataUrl : String :=
  "https://raw.githubusercontent.com/sethfrand/Stat_386_final_project/refs/heads/main/data/test_data.csv"

/-- Embeds `load_demo_data`: try the packaged-resource branch — whose
first statement looks up `resource_filename` on `importlib.resources` —
and on any exception fall back to reading the fixed remote URL.  The
network read itself is outside the model; the embedding records which
source the function commits to. -/
def load_demo_data : DemoSource :=
  match getattrOf importlibResourcesAttrs "resource_filename" with
  | .ok _ => .packaged "utah_housing_stat386/data/test_data.csv"
  | .error _ => .remote demoDataUrl

end Demo

/-! ## Result classifiers and the per-column cleaner table
Helper definitions used by the theorem statements below. -/

/-- The call returned a float or the missing marker (no exception). -/
def floatOrMissing : PyResult → Bool
  | .ok (.vFloat _) => true
  | .ok .vNan => true
  | _ => false

/-- The call returned an int or the missing marker (no exception). -/
def intOrMissing : PyResult → Bool
  | .ok (.vInt _) => true
  | .ok .vNan => true
  | _ => false

/-- The call returned a string or the missing marker (no exception). -/
def strOrMissing : PyResult → Bool
  | .ok (.vStr _) => true
  | .ok .vNan => true
  | _ => false

/-- The call returned an int (never missing, no exception). -/
def intAlways : PyResult → Bool
  | .ok (.vInt _) => true
  | _ => false

/-- The call returned normally (no exception). -/
def PyResult.isOk : PyResult → Bool
  | .ok _ => true
  | .exn _ => false

namespace Cleaning

/-- The field cleaner `clean_housing_data` applies to a column, per the
source's `if ... in df_clean.columns` chain; `none` for columns outside
the cleaned list. -/
def fieldCleaner (currentYear : ℤ) (c : String) : Option (PyVal → PyResult) :=
  if c = "price" then some clean_price
  else if c = "beds" then some clean_numeric_field
  else if c = "baths" then some clean_numeric_field
  else if c = "sqft" then some clean_numeric_field
  else if c = "year_built" then some (clean_year_built currentYear)
  else if c = "lot_size" then some clean_lot_size
  else if c = "garage" then some clean_garage
  else if c = "address" then some clean_address
  else if c = "city" then some clean_city
  else none

/-- The cell `clean_housing_data` leaves in column `c` for an input cell
`v`: the column's cleaner applied when the column is cleaned, the cell
itself otherwise. -/
def cleanedCell (currentYear : ℤ) (c : String) (v : PyVal) : PyVal :=
  match fieldCleaner currentYear c with
  | some f => okValue (f v)
  | none => v

/-- The column/cleaner pairs of `clean_housing_data`, in the source's
application order (used to reason about the chain of guarded steps). -/
def cleaningSteps (currentYear : ℤ) : List (String × (PyVal → PyResult)) :=
  [("price", clean_price), ("beds", clean_numeric_field), ("baths", clean_numeric_field),
   ("sqft", clean_numeric_field), ("year_built", clean_year_built currentYear),
   ("lot_size", clean_lot_size), ("garage", clean_garage), ("address", clean_address),
   ("city", clean_city)]

/-- Row predicate kept by `remove_invalid_entries` (in the Boolean
nesting the three filter passes compose to, outermost pass first). -/
def keepValid (r : Row) : Bool :=
  pyNotna (Row.cell r "address") &&
    (pyGtZero (Row.cell r "price") &&
      (pyNotna (Row.cell r "price") && pyNotna (Row.cell r "mls")))

end Cleaning

namespace StreamlitApp

/-- Row predicate for inclusion in the price-per-square-foot derivation:
`sqft` and `price` both present and `sqft > 0` (in the nesting the two
filter passes compose to). -/
def keepSqft (r : Row) : Bool :=
  pyGtZero (Row.cell r "sqft") &&
    (pyNotna (Row.cell r "sqft") && pyNotna (Row.cell r "price"))

/-- The derived row: the original with the `price_per_sqft` column
assigned to `price / sqft`. -/
def derivedRow (r : Row) : Row :=
  Row.assign "price_per_sqft" (pyDiv (Row.cell r "price") (Row.cell r "sqft")) r

end StreamlitApp

/-! ## Concrete frames for the witness theorems -/

/-- A three-column frame with one fully valid row and two invalid ones
(missing `mls`; non-positive `price`). -/
def dfInvalidDemo : DataFrame :=
  { cols := ["mls", "price", "address"],
    rows := [
      [("mls", .vStr "1001"), ("price", .vFloat 481999), ("address", .vStr "1 Main St")],
      [("mls", .vNan), ("price", .vFloat 250000), ("address", .vStr "2 Oak Ave")],
      [("mls", .vStr "1003"), ("price", .vFloat 0), ("address", .vStr "3 Elm Rd")]] }

/-- A raw frame as the scraper returns it: an `agent` column to drop and
string-typed `price`, `beds` and `baths` (the spec's integration
example). -/
def dfRawDemo : DataFrame :=
  { cols := ["agent", "price", "beds", "baths"],
    rows := [
      [("agent", .vStr "Jane Roe"), ("price", .vStr "$100,000"), ("beds", .vStr "3"),
        ("baths", .vStr "2")],
      [("agent", .vStr "Jo Poe"), ("price", .vStr "$200,000"), ("beds", .vStr "4"),
        ("baths", .vStr "3")]] }

/-- What cleaning `dfRawDemo` yields: `agent` dropped, `price` and
`beds`/`baths` numeric — in particular `price.iloc[0] = 100000.0` and
`beds.iloc[0] = 3.0`. -/
def dfRawDemoClean : DataFrame :=
  { cols := ["price", "beds", "baths"],
    rows := [
      [("price", .vFloat 100000), ("beds", .vFloat 3), ("baths", .vFloat 2)],
      [("price", .vFloat 200000), ("beds", .vFloat 4), ("baths", .vFloat 3)]] }

/-- A frame for the dashboard metric: one includable row, one with zero
`sqft` and one with missing `sqft`. -/
def dfSqftDemo : DataFrame :=
  { cols := ["price", "sqft"],
    rows := [
      [("price", .vFloat 300000), ("sqft", .vFloat 2000)],
      [("price", .vFloat 250000), ("sqft", .vFloat 0)],
      [("price", .vFloat 200000), ("sqft", .vNan)]] }

/-! ## Theorems -/

/-- C1: every per-field cleaner is total with the declared result type —
float-or-missing for `clean_price` and `clean_numeric_field`,
int-or-missing for `clean_year_built`, an int (never missing) for
`clean_garage`, string-or-missing for `clean_address` and `clean_city`
(`check_is_nan` is Boolean by type) — EXCEPT `clean_lot_size`: its
`float(numbers[0])` call is not guarded by a `try/except`, and on the
input `"."` the first `[\d.]+` run is `"."`, which `float` rejects, so
the call raises an unhandled `ValueError` instead of returning
float-or-missing.  The final conjunct evaluates the code at that
failing input. -/
theorem per_field_cleaners_typed_except_lot_size :
    (∀ v, floatOrMissing (Cleaning.clean_price v) = true) ∧
    (∀ v, floatOrMissing (Cleaning.clean_numeric_field v) = true) ∧
    (∀ currentYear v, intOrMissing (Cleaning.clean_year_built currentYear v) = true) ∧
    (∀ v, intAlways (Cleaning.clean_garage v) = true) ∧
    (∀ v, strOrMissing (Cleaning.clean_address v) = true) ∧
    (∀ v, strOrMissing (Cleaning.clean_city v) = true) ∧
    Cleaning.clean_lot_size (.vStr ".") = .exn "ValueError" := by
  refine ⟨?_, ?_, ?_, ?_, ?_, ?_, ?_⟩
  · intro v
    unfold Cleaning.clean_price
    split
    · rfl
    · dsimp only
      cases h : pyFloatOfChars (stripChars Cleaning.isPriceStripChar (pyStr v)) <;>
        simp [h, floatOrMissing]
  · intro v
    unfold Cleaning.clean_numeric_field
    split
    · rfl
    · dsimp only
      cases h : pyFloatOfChars (stripChars Cleaning.isNumericStripChar (pyStr v)) <;>
        simp [h, floatOrMissing]
  · intro currentYear v
    unfold Cleaning.clean_year_built
    split
    · rfl
    · cases h : pyIntVal v with
      | none => simp [h, intOrMissing]
      | some year =>
        simp only [h]
        split <;> simp [intOrMissing]
  · intro v
    unfold Cleaning.clean_garage
    split
    · rfl
    · cases h : findRuns Char.isDigit (pyStr v) <;> simp [h, intAlways]
  · intro v
    unfold Cleaning.clean_address
    split <;> rfl
  · intro v
    unfold Cleaning.clean_city
    split <;> rfl
  · decide

/-- C7: `clean_garage` returns the first decimal-digit run of the
string, verbatim as an unbounded integer; `0` when the input is missing
or has no digits; and its result is always an int — never the missing
marker and never an exception.  Includes the spec's literal examples,
`"2124187"` (a stray MLS-like number, no length cap) among them. -/
theorem clean_garage_first_digit_run :
    (∀ v, Cleaning.check_is_nan v = true → Cleaning.clean_garage v = .ok (.vInt 0)) ∧
    (∀ v t ts, Cleaning.check_is_nan v = false →
      findRuns Char.isDigit (pyStr v) = t :: ts →
      Cleaning.clean_garage v = .ok (.vInt (digitsToNat t))) ∧
    (∀ v, Cleaning.check_is_nan v = false →
      findRuns Char.isDigit (pyStr v) = [] →
      Cleaning.clean_garage v = .ok (.vInt 0)) ∧
    (∀ v, ∃ n : ℤ, Cleaning.clean_garage v = .ok (.vInt n)) ∧
    Cleaning.clean_garage (.vStr "2") = .ok (.vInt 2) ∧
    Cleaning.clean_garage (.vStr "2124187") = .ok (.vInt 2124187) ∧
    Cleaning.clean_garage (.vStr "") = .ok (.vInt 0) := by
  refine ⟨?_, ?_, ?_, ?_, by decide, by decide, by decide⟩
  · intro v h
    unfold Cleaning.clean_garage
    simp [h]
  · intro v t ts h hr
    unfold Cleaning.clean_garage
    simp [h, hr]
  · intro v h hr
    unfold Cleaning.clean_garage
    simp [h, hr]
  · intro v
    unfold Cleaning.clean_garage
    split
    · exact ⟨0, rfl⟩
    · cases hr : findRuns Char.isDigit (pyStr v) with
      | nil => exact ⟨0, by simp [hr]⟩
      | cons t ts => exact ⟨digitsToNat t, by simp [hr]⟩

/-- C10: the packaged-resource branch of `load_demo_data` always fails —
the module bound as `pkg_resources` is `importlib.resources`, which has
no `resource_filename` attribute, so the lookup raises before any file
is read and the bare `except` falls back — hence the demo data always
comes from the fixed remote GitHub URL, never the bundled resource. -/
theorem load_demo_data_always_remote :
    Demo.load_demo_data = .remote Demo.demoDataUrl ∧
    "resource_filename" ∉ Demo.importlibResourcesAttrs := by
  constructor
  · rfl
  · decide

unseal Rat.add Rat.mul Rat.inv in
/-- C9 counterexample: the legacy acre-branch does NOT return the
original string — it returns the lower-cased, trimmed reassignment of
the local variable.  On `"0.10 Ac"` it yields the string `"0.10 ac"`,
which differs from the original `"0.10 Ac"`. -/
theorem clea_lot_size_not_original_string :
    LegacyCleaning.clea_lot_size (.vStr "0.10 Ac") = .ok (.vStr "0.10 ac") ∧
    ("0.10 ac" : String) ≠ "0.10 Ac" := by
  constructor
  · decide
  · decide

/-- C9 (amended): for a non-missing input string whose first `[\d.]+`
run parses as a float, the legacy `clea_lot_size` returns on the
`"ac"`/`"acre"` branch the lower-cased, trimmed input STRING (not a
number) — differing in type and value from the canonical
`clean_lot_size`, which returns the parsed value as a float — while on
the `"sq"`/`"ft"`-but-not-`"ac"` branch it returns the value divided by
43560, as the canonical cleaner does. -/
theorem clea_lot_size_acre_branch_string (s : String) (low tok : List Char)
    (ts : List (List Char)) (q : ℚ)
    (hs : s ≠ "")
    (hlow : low = stripEnds isPySpace (toLowerChars s.data))
    (hruns : findRuns isDigitOrDot low = tok :: ts)
    (hq : pyFloatOfChars tok = some q) :
    (containsSub "ac".data low = true →
      LegacyCleaning.clea_lot_size (.vStr s) = .ok (.vStr (String.mk low)) ∧
      Cleaning.clean_lot_size (.vStr s) = .ok (.vFloat q) ∧
      PyVal.vStr (String.mk low) ≠ PyVal.vFloat q) ∧
    (containsSub "ac".data low = false → containsSub "acre".data low = false →
      (containsSub "sq".data low || containsSub "ft".data low) = true →
      LegacyCleaning.clea_lot_size (.vStr s) = .ok (.vFloat (q / 43560)) ∧
      Cleaning.clean_lot_size (.vStr s) = .ok (.vFloat (q / 43560))) := by
  have hnan : Cleaning.check_is_nan (.vStr s) = false := by
    simp [Cleaning.check_is_nan, hs]
  have hps : pyStr (PyVal.vStr s) = s.data := rfl
  constructor
  · intro hac
    refine ⟨?_, ?_, by simp⟩
    · simp only [LegacyCleaning.clea_lot_size, hps, ← hlow, hruns, hq, hac,
        Bool.true_or, if_true]
    · simp only [Cleaning.clean_lot_size, hnan, Bool.false_eq_true, if_false,
        hps, ← hlow, hruns, hq, hac, Bool.true_or, if_true]
  · intro hac hacre hsq
    constructor
    · simp only [LegacyCleaning.clea_lot_size, hps, ← hlow, hruns, hq, hac, hacre,
        Bool.or_self, Bool.false_eq_true, if_false, hsq, if_true]
    · simp only [Cleaning.clean_lot_size, hnan, Bool.false_eq_true, if_false,
        hps, ← hlow, hruns, hq, hac, hacre, Bool.or_self, hsq, if_true]

unseal Rat.add Rat.mul Rat.inv in
/-- C9 witness: the amended statement at the concrete acre-branch input
`"0.10 Ac"` — legacy returns the string `"0.10 ac"`, canonical returns
the float `0.10`, and the two differ. -/
theorem clea_lot_size_acre_branch_string_witness :
    LegacyCleaning.clea_lot_size (.vStr "0.10 Ac") = .ok (.vStr "0.10 ac") ∧
    Cleaning.clean_lot_size (.vStr "0.10 Ac") = .ok (.vFloat (1/10)) ∧
    PyVal.vStr "0.10 ac" ≠ PyVal.vFloat (1/10) := by
  have h := clea_lot_size_acre_branch_string "0.10 Ac" "0.10 ac".data "0.10".data
    [] (1/10) (by decide) (by decide) (by decide) (by decide)
  exact h.1 (by decide)

unseal Rat.add Rat.mul Rat.inv in
/-- C4: on a non-missing string input, `clean_lot_size` lower-cases and
trims the string (`low`), extracts the first `[\d.]+` run, and — when
that run parses as a float `q` — returns `q` unchanged if the lowered
string contains `"ac"` or `"acre"`, `q / 43560` if it contains `"sq"`
or `"ft"`, and `q` unchanged otherwise; with no run at all, and on
missing input, it returns the missing marker.  The spec's examples:
`"0.10 Ac"` gives exactly `0.10`, and `"4356 sq ft"` gives
`4356 / 43560`, within `0.01` of `0.1`. -/
theorem clean_lot_size_unit_conversion (s : String) (low : List Char)
    (hs : s ≠ "")
    (hlow : low = stripEnds isPySpace (toLowerChars s.data)) :
    (findRuns isDigitOrDot low = [] → Cleaning.clean_lot_size (.vStr s) = .ok .vNan) ∧
    (∀ tok ts q, findRuns isDigitOrDot low = tok :: ts → pyFloatOfChars tok = some q →
      Cleaning.clean_lot_size (.vStr s) = .ok (.vFloat
        (if (containsSub "ac".data low || containsSub "acre".data low) = true then q
         else if (containsSub "sq".data low || containsSub "ft".data low) = true then q / 43560
         else q))) ∧
    (∀ v, Cleaning.check_is_nan v = true → Cleaning.clean_lot_size v = .ok .vNan) ∧
    Cleaning.clean_lot_size (.vStr "0.10 Ac") = .ok (.vFloat (1/10)) ∧
    Cleaning.clean_lot_size (.vStr "4356 sq ft") = .ok (.vFloat (4356 / 43560)) ∧
    |(4356 : ℚ) / 43560 - 1/10| < 1/100 := by
  have hnan : Cleaning.check_is_nan (.vStr s) = false := by
    simp [Cleaning.check_is_nan, hs]
  have hps : pyStr (PyVal.vStr s) = s.data := rfl
  refine ⟨?_, ?_, ?_, by decide, by decide, ?_⟩
  · intro hruns
    simp only [Cleaning.clean_lot_size, hnan, Bool.false_eq_true, if_false,
      hps, ← hlow, hruns]
  · intro tok ts q hruns hq
    simp only [Cleaning.clean_lot_size, hnan, Bool.false_eq_true, if_false,
      hps, ← hlow, hruns, hq]
    split
    · rfl
    · split <;> rfl
  · intro v hv
    unfold Cleaning.clean_lot_size
    simp [hv]
  · have h10 : (4356 : ℚ) / 43560 = 1 / 10 := by norm_num
    rw [h10]
    norm_num

unseal Rat.add Rat.mul Rat.inv in
/-- C4 witness: the general statement applied at `"0.10 Ac"`, whose
lowered, trimmed form is `"0.10 ac"`: the acre branch returns `0.10`
exactly. -/
theorem clean_lot_size_unit_conversion_witness :
    Cleaning.clean_lot_size (.vStr "0.10 Ac") = .ok (.vFloat (1/10)) :=
  (clean_lot_size_unit_conversion "0.10 Ac" "0.10 ac".data
    (by decide) (by decide)).2.2.2.1

/-- Cell of a row without column `c` is the missing marker. -/
theorem cell_eq_nan_of_not_hasCol (c : String) :
    ∀ (r : Row), Row.hasCol r c = false → Row.cell r c = .vNan := by
  intro r
  induction r with
  | nil => intro _; rfl
  | cons p rest ih =>
    intro h
    rcases p with ⟨k, w⟩
    unfold Row.hasCol at h
    simp only [Bool.or_eq_false_iff, decide_eq_false_iff_not] at h
    unfold Row.cell
    rw [if_neg h.1]
    exact ih h.2

/-- A row carries column `c` exactly when `c` is among its keys. -/
theorem hasCol_iff_mem_keys (c : String) :
    ∀ (r : Row), Row.hasCol r c = true ↔ c ∈ r.map Prod.fst := by
  intro r
  induction r with
  | nil => simp [Row.hasCol]
  | cons p rest ih =>
    rcases p with ⟨k, w⟩
    unfold Row.hasCol
    simp only [Bool.or_eq_true, decide_eq_true_eq, List.map_cons, List.mem_cons]
    rw [ih]
    constructor
    · rintro (rfl | h) <;> [exact Or.inl rfl; exact Or.inr h]
    · rintro (rfl | h) <;> [exact Or.inl rfl; exact Or.inr h]

/-- `setCell` writes the addressed cell (when the column exists). -/
theorem cell_setCell_self (c : String) (v : PyVal) :
    ∀ (r : Row), Row.hasCol r c = true → Row.cell (Row.setCell c v r) c = v := by
  intro r
  induction r with
  | nil => intro h; simp [Row.hasCol] at h
  | cons p rest ih =>
    intro h
    rcases p with ⟨k, w⟩
    unfold Row.setCell
    by_cases hk : k = c
    · rw [if_pos hk]
      unfold Row.cell
      rw [if_pos hk]
    · rw [if_neg hk]
      unfold Row.cell
      rw [if_neg hk]
      apply ih
      unfold Row.hasCol at h
      simp only [Bool.or_eq_true, decide_eq_true_eq] at h
      rcases h with h | h
      · exact absurd h hk
      · exact h

/-- `setCell` leaves every other column's cell unchanged. -/
theorem cell_setCell_ne (c : String) (v : PyVal) (c' : String) (hne : c' ≠ c) :
    ∀ (r : Row), Row.cell (Row.setCell c v r) c' = Row.cell r c' := by
  intro r
  induction r with
  | nil => rfl
  | cons p rest ih =>
    rcases p with ⟨k, w⟩
    unfold Row.setCell
    by_cases hk : k = c
    · rw [if_pos hk]
      unfold Row.cell
      rw [if_neg (by rw [hk]; exact fun he => hne he.symm),
        if_neg (by rw [hk]; exact fun he => hne he.symm)]
    · rw [if_neg hk]
      unfold Row.cell
      by_cases hk2 : k = c'
      · rw [if_pos hk2, if_pos hk2]
      · rw [if_neg hk2, if_neg hk2]
        exact ih

/-- `setCell` keeps the row's column list. -/
theorem keys_setCell (c : String) (v : PyVal) :
    ∀ (r : Row), (Row.setCell c v r).map Prod.fst = r.map Prod.fst := by
  intro r
  induction r with
  | nil => rfl
  | cons p rest ih =>
    rcases p with ⟨k, w⟩
    unfold Row.setCell
    by_cases hk : k = c
    · rw [if_pos hk]
      simp
    · rw [if_neg hk]
      simp only [List.map_cons]
      rw [ih]

/-- Appending a fresh column makes its cell readable. -/
theorem cell_append_single_self (c : String) (v : PyVal) :
    ∀ (r : Row), Row.hasCol r c = false → Row.cell (r ++ [(c, v)]) c = v := by
  intro r
  induction r with
  | nil => intro _; simp [Row.cell]
  | cons p rest ih =>
    intro h
    rcases p with ⟨k, w⟩
    unfold Row.hasCol at h
    simp only [Bool.or_eq_false_iff, decide_eq_false_iff_not] at h
    rw [List.cons_append]
    unfold Row.cell
    rw [if_neg h.1]
    exact ih h.2

/-- Appending a column leaves other columns' cells unchanged. -/
theorem cell_append_single_ne (c : String) (v : PyVal) (c' : String) (hne : c' ≠ c) :
    ∀ (r : Row), Row.cell (r ++ [(c, v)]) c' = Row.cell r c' := by
  intro r
  induction r with
  | nil =>
    simp only [List.nil_append]
    unfold Row.cell
    rw [if_neg (fun he => hne he.symm)]
    rfl
  | cons p rest ih =>
    rcases p with ⟨k, w⟩
    rw [List.cons_append]
    unfold Row.cell
    by_cases hk : k = c'
    · rw [if_pos hk, if_pos hk]
    · rw [if_neg hk, if_neg hk]
      exact ih

/-- `assign` writes the addressed cell, whether present or appended. -/
theorem cell_assign_self (c : String) (v : PyVal) (r : Row) :
    Row.cell (StreamlitApp.Row.assign c v r) c = v := by
  unfold StreamlitApp.Row.assign
  cases h : Row.hasCol r c with
  | true => rw [if_pos rfl]; exact cell_setCell_self c v r h
  | false => rw [if_neg (by simp)]; exact cell_append_single_self c v r h

/-- `assign` leaves every other column's cell unchanged. -/
theorem cell_assign_ne (c : String) (v : PyVal) (c' : String) (hne : c' ≠ c) (r : Row) :
    Row.cell (StreamlitApp.Row.assign c v r) c' = Row.cell r c' := by
  unfold StreamlitApp.Row.assign
  cases h : Row.hasCol r c with
  | true => rw [if_pos rfl]; exact cell_setCell_ne c v c' hne r
  | false => rw [if_neg (by simp)]; exact cell_append_single_ne c v c' hne r

/-- C2: over a frame with `mls`, `price` and `address` columns (its
`price` column numeric-or-missing, as the pipeline guarantees when
`remove_invalid_entries` runs), the output keeps exactly the input rows
with non-missing `mls`, non-missing positive `price` and non-missing
`address`: every output row satisfies all the conditions, and every
input row absent from the output violates at least one. -/
theorem remove_invalid_entries_keeps_exactly_valid (df : DataFrame)
    (hm : "mls" ∈ df.cols) (hp : "price" ∈ df.cols) (ha : "address" ∈ df.cols)
    (hnum : ∀ r ∈ df.rows, numericOrNan (Row.cell r "price") = true) :
    (Cleaning.remove_invalid_entries df).cols = df.cols ∧
    (Cleaning.remove_invalid_entries df).rows = df.rows.filter Cleaning.keepValid ∧
    (∀ r ∈ (Cleaning.remove_invalid_entries df).rows,
      pyNotna (Row.cell r "mls") = true ∧ pyNotna (Row.cell r "price") = true ∧
      pyGtZero (Row.cell r "price") = true ∧ pyNotna (Row.cell r "address") = true) ∧
    (∀ r ∈ df.rows, r ∉ (Cleaning.remove_invalid_entries df).rows →
      ¬(pyNotna (Row.cell r "mls") = true ∧ pyNotna (Row.cell r "price") = true ∧
        pyGtZero (Row.cell r "price") = true ∧ pyNotna (Row.cell r "address") = true)) := by
  have e1 : Cleaning.invalidStep df "mls" = { df with rows := df.rows.filter (fun r => pyNotna (r.cell "mls")) } := by
    unfold Cleaning.invalidStep
    rw [if_pos hm, if_neg (by decide : ¬(("mls" : String) = "price"))]
  have e2 : Cleaning.invalidStep (Cleaning.invalidStep df "mls") "price" = { df with rows := ((df.rows.filter (fun r => pyNotna (r.cell "mls"))).filter (fun r => pyNotna (r.cell "price"))).filter (fun r => pyGtZero (r.cell "price")) } := by
    rw [e1]
    unfold Cleaning.invalidStep
    rw [if_pos (show ("price" : String) ∈ df.cols from hp), if_pos rfl]
  have e3 : Cleaning.remove_invalid_entries df = { df with rows := (((df.rows.filter (fun r => pyNotna (r.cell "mls"))).filter (fun r => pyNotna (r.cell "price"))).filter (fun r => pyGtZero (r.cell "price"))).filter (fun r => pyNotna (r.cell "address")) } := by
    show Cleaning.invalidStep (Cleaning.invalidStep (Cleaning.invalidStep df "mls") "price") "address" = _
    rw [e2]
    unfold Cleaning.invalidStep
    rw [if_pos (show ("address" : String) ∈ df.cols from ha),
      if_neg (by decide : ¬(("address" : String) = "price"))]
  have hrows : (Cleaning.remove_invalid_entries df).rows = df.rows.filter Cleaning.keepValid := by
    rw [e3]
    simp only [List.filter_filter]
    rfl
  refine ⟨by rw [e3], hrows, ?_, ?_⟩
  · intro r hr
    rw [hrows] at hr
    simp only [List.mem_filter] at hr
    have hk := hr.2
    unfold Cleaning.keepValid at hk
    simp only [Bool.and_eq_true] at hk
    exact ⟨hk.2.2.2, hk.2.2.1, hk.2.1, hk.1⟩
  · intro r hr hout
    rw [hrows] at hout
    simp only [List.mem_filter, not_and] at hout
    intro hcond
    apply hout hr
    unfold Cleaning.keepValid
    simp only [Bool.and_eq_true]
    exact ⟨hcond.2.2.2, hcond.2.2.1, hcond.2.1, hcond.1⟩

/-- C2 witness: the exact-filter identity on a concrete frame with one
valid row, one missing-`mls` row and one zero-`price` row. -/
theorem remove_invalid_entries_keeps_exactly_valid_witness :
    (Cleaning.remove_invalid_entries dfInvalidDemo).rows =
      dfInvalidDemo.rows.filter Cleaning.keepValid :=
  (remove_invalid_entries_keeps_exactly_valid dfInvalidDemo
    (by decide) (by decide) (by decide) (by decide)).2.1

namespace Cleaning

/-- Deduplication yields a sublist: the kept rows stay in their
original relative order. -/
theorem dedupFirst_sublist (key : Row → List PyVal) :
    ∀ (seen : List (List PyVal)) (l : List Row), (dedupFirst key seen l).Sublist l := by
  intro seen l
  induction l generalizing seen with
  | nil => simp [dedupFirst]
  | cons r rest ih =>
    unfold dedupFirst
    split
    · exact (ih seen).trans (List.sublist_cons_self r rest)
    · exact (ih (key r :: seen)).cons₂ r

/-- No kept row's key was already seen. -/
theorem dedupFirst_not_seen (key : Row → List PyVal) :
    ∀ (seen : List (List PyVal)) (l : List Row) (r : Row),
      r ∈ dedupFirst key seen l → key r ∉ seen := by
  intro seen l
  induction l generalizing seen with
  | nil => intro r h; simp [dedupFirst] at h
  | cons r0 rest ih =>
    intro r h
    unfold dedupFirst at h
    split at h
    · exact ih seen r h
    · rcases List.mem_cons.mp h with rfl | h2
      · assumption
      · intro hs
        exact ih (key r0 :: seen) r h2 (List.mem_cons_of_mem _ hs)

/-- The kept rows' keys are pairwise distinct. -/
theorem dedupFirst_keys_nodup (key : Row → List PyVal) :
    ∀ (seen : List (List PyVal)) (l : List Row),
      ((dedupFirst key seen l).map key).Nodup := by
  intro seen l
  induction l generalizing seen with
  | nil => simp [dedupFirst]
  | cons r0 rest ih =>
    unfold dedupFirst
    split
    · exact ih seen
    · simp only [List.map_cons, List.nodup_cons]
      refine ⟨?_, ih (key r0 :: seen)⟩
      intro hmem
      rcases List.mem_map.mp hmem with ⟨r, hr, hkey⟩
      exact dedupFirst_not_seen key (key r0 :: seen) rest r hr
        (by rw [hkey]; exact List.mem_cons_self _ _)

/-- Every unseen key of the input appears among the kept rows. -/
theorem dedupFirst_covers (key : Row → List PyVal) :
    ∀ (seen : List (List PyVal)) (l : List Row) (r : Row),
      r ∈ l → key r ∉ seen → ∃ r' ∈ dedupFirst key seen l, key r' = key r := by
  intro seen l
  induction l generalizing seen with
  | nil => intro r h; simp at h
  | cons r0 rest ih =>
    intro r hmem hns
    unfold dedupFirst
    split
    · rcases List.mem_cons.mp hmem with rfl | h2
      · exact absurd (by assumption) hns
      · exact ih seen r h2 hns
    · rcases List.mem_cons.mp hmem with rfl | h2
      · exact ⟨r, List.mem_cons_self _ _, rfl⟩
      · by_cases hk : key r = key r0
        · exact ⟨r0, List.mem_cons_self _ _, hk.symm⟩
        · rcases ih (key r0 :: seen) r h2 (by simp [hk, hns]) with ⟨r', hr', hkey⟩
          exact ⟨r', List.mem_cons_of_mem _ hr', hkey⟩

/-- Every kept row is the FIRST input row bearing its key. -/
theorem dedupFirst_first_occ (key : Row → List PyVal) :
    ∀ (seen : List (List PyVal)) (l : List Row) (r : Row),
      r ∈ dedupFirst key seen l →
      l.find? (fun x => decide (key x = key r)) = some r := by
  intro seen l
  induction l generalizing seen with
  | nil => intro r h; simp [dedupFirst] at h
  | cons r0 rest ih =>
    intro r h
    unfold dedupFirst at h
    split at h
    · have hne : key r0 ≠ key r := by
        intro he
        have := dedupFirst_not_seen key seen rest r h
        rw [← he] at this
        exact this (by assumption)
      rw [List.find?_cons_of_neg _ (by simp [hne])]
      exact ih seen r h
    · rcases List.mem_cons.mp h with rfl | h2
      · rw [List.find?_cons_of_pos _ (by simp)]
      · have hns := dedupFirst_not_seen key (key r0 :: seen) rest r h2
        have hne : key r0 ≠ key r := by
          intro he
          exact hns (by rw [← he]; exact List.mem_cons_self _ _)
        rw [List.find?_cons_of_neg _ (by simp [hne])]
        exact ih (key r0 :: seen) r h2

/-- On a list whose keys are fresh and pairwise distinct, first-occurrence
deduplication keeps everything. -/
theorem dedupFirst_of_nodup (key : Row → List PyVal) :
    ∀ (seen : List (List PyVal)) (l : List Row),
      (∀ r ∈ l, key r ∉ seen) → ((l.map key).Nodup) →
      dedupFirst key seen l = l := by
  intro seen l
  induction l generalizing seen with
  | nil => intro _ _; rfl
  | cons r0 rest ih =>
    intro hseen hnd
    unfold dedupFirst
    rw [if_neg (hseen r0 (List.mem_cons_self _ _))]
    congr 1
    simp only [List.map_cons, List.nodup_cons] at hnd
    apply ih
    · intro r hr
      simp only [List.mem_cons]
      push_neg
      constructor
      · intro he
        exact hnd.1 (by rw [← he]; exact List.mem_map_of_mem key hr)
      · exact hseen r (List.mem_cons_of_mem _ hr)
    · exact hnd.2

end Cleaning

/-- C5: for any frame and key columns, `remove_duplicates` keeps the
rows in their original relative order (sublist), keeps pairwise
distinct keys, represents every input key, keeps for each key exactly
the first input row bearing it, and is idempotent: applied to its own
output it changes nothing. -/
theorem remove_duplicates_first_occurrence_idem (subset : List String) (df : DataFrame) :
    (Cleaning.remove_duplicates subset df).cols = df.cols ∧
    (Cleaning.remove_duplicates subset df).rows.Sublist df.rows ∧
    ((Cleaning.remove_duplicates subset df).rows.map (Cleaning.rowKey subset)).Nodup ∧
    (∀ r ∈ df.rows, ∃ r' ∈ (Cleaning.remove_duplicates subset df).rows,
      Cleaning.rowKey subset r' = Cleaning.rowKey subset r) ∧
    (∀ r ∈ (Cleaning.remove_duplicates subset df).rows,
      df.rows.find? (fun x => decide (Cleaning.rowKey subset x = Cleaning.rowKey subset r)) = some r) ∧
    Cleaning.remove_duplicates subset (Cleaning.remove_duplicates subset df) =
      Cleaning.remove_duplicates subset df := by
  refine ⟨rfl, ?_, ?_, ?_, ?_, ?_⟩
  · exact Cleaning.dedupFirst_sublist _ [] df.rows
  · exact Cleaning.dedupFirst_keys_nodup _ [] df.rows
  · intro r hr
    exact Cleaning.dedupFirst_covers _ [] df.rows r hr (by simp)
  · intro r hr
    exact Cleaning.dedupFirst_first_occ _ [] df.rows r hr
  · show { df with rows := Cleaning.dedupFirst _ [] _ } = _
    unfold Cleaning.remove_duplicates
    congr 1
    exact Cleaning.dedupFirst_of_nodup _ [] _ (by simp)
      (Cleaning.dedupFirst_keys_nodup _ [] df.rows)

/-- C8: the dashboard derivation includes exactly the rows with
non-missing `sqft` and `price` and `sqft > 0` (all others are
excluded), and gives every included row the derived cell
`price_per_sqft = price / sqft` — exactly the quotient of the row's
own cells. -/
theorem price_per_sqft_excludes_and_divides (df : DataFrame)
    (hnum : ∀ r ∈ df.rows, numericOrNan (Row.cell r "sqft") = true ∧
      numericOrNan (Row.cell r "price") = true) :
    (StreamlitApp.price_per_sqft_table df).rows =
      (df.rows.filter StreamlitApp.keepSqft).map StreamlitApp.derivedRow ∧
    (∀ r ∈ df.rows, StreamlitApp.keepSqft r = true →
      StreamlitApp.derivedRow r ∈ (StreamlitApp.price_per_sqft_table df).rows) ∧
    (∀ r' ∈ (StreamlitApp.price_per_sqft_table df).rows,
      pyNotna (Row.cell r' "price") = true ∧ pyNotna (Row.cell r' "sqft") = true ∧
      pyGtZero (Row.cell r' "sqft") = true) ∧
    (∀ r' ∈ (StreamlitApp.price_per_sqft_table df).rows,
      Row.cell r' "price_per_sqft" =
        StreamlitApp.pyDiv (Row.cell r' "price") (Row.cell r' "sqft")) ∧
    (∀ r' ∈ (StreamlitApp.price_per_sqft_table df).rows, ∀ p sq : ℚ,
      Row.cell r' "price" = .vFloat p → Row.cell r' "sqft" = .vFloat sq →
      Row.cell r' "price_per_sqft" = .vFloat (p / sq)) := by
  have hrows : (StreamlitApp.price_per_sqft_table df).rows =
      (df.rows.filter StreamlitApp.keepSqft).map StreamlitApp.derivedRow := by
    unfold StreamlitApp.price_per_sqft_table
    dsimp only
    rw [List.filter_filter]
    rfl
  have hcellp : ∀ r : Row, Row.cell (StreamlitApp.derivedRow r) "price" = Row.cell r "price" := by
    intro r
    exact cell_assign_ne _ _ _ (by decide) r
  have hcells : ∀ r : Row, Row.cell (StreamlitApp.derivedRow r) "sqft" = Row.cell r "sqft" := by
    intro r
    exact cell_assign_ne _ _ _ (by decide) r
  have hcelld : ∀ r : Row, Row.cell (StreamlitApp.derivedRow r) "price_per_sqft" =
      StreamlitApp.pyDiv (Row.cell r "price") (Row.cell r "sqft") := by
    intro r
    exact cell_assign_self _ _ r
  refine ⟨hrows, ?_, ?_, ?_, ?_⟩
  · intro r hr hk
    rw [hrows]
    exact List.mem_map_of_mem _ (List.mem_filter.mpr ⟨hr, hk⟩)
  · intro r' hr'
    rw [hrows] at hr'
    rcases List.mem_map.mp hr' with ⟨r, hrmem, rfl⟩
    have hk := (List.mem_filter.mp hrmem).2
    unfold StreamlitApp.keepSqft at hk
    simp only [Bool.and_eq_true] at hk
    rw [hcellp, hcells]
    exact ⟨hk.2.2, hk.2.1, hk.1⟩
  · intro r' hr'
    rw [hrows] at hr'
    rcases List.mem_map.mp hr' with ⟨r, hrmem, rfl⟩
    rw [hcellp, hcells, hcelld]
  · intro r' hr' p sq hp hsq
    rw [hrows] at hr'
    rcases List.mem_map.mp hr' with ⟨r, hrmem, rfl⟩
    rw [hcellp] at hp
    rw [hcells] at hsq
    rw [hcelld, hp, hsq]
    rfl

/-- C8 witness: the filter-and-map identity on a concrete frame with
one includable row, one zero-`sqft` row and one missing-`sqft` row. -/
theorem price_per_sqft_excludes_and_divides_witness :
    (StreamlitApp.price_per_sqft_table dfSqftDemo).rows =
      (dfSqftDemo.rows.filter StreamlitApp.keepSqft).map StreamlitApp.derivedRow :=
  (price_per_sqft_excludes_and_divides dfSqftDemo (by decide)).1

/-- `dropCell` leaves every other column's cell unchanged. -/
theorem cell_dropCell_ne (c : String) (c' : String) (hne : c' ≠ c) :
    ∀ (r : Row), Row.cell (Row.dropCell c r) c' = Row.cell r c' := by
  intro r
  induction r with
  | nil => rfl
  | cons p rest ih =>
    rcases p with ⟨k, w⟩
    unfold Row.dropCell
    by_cases hk : k = c
    · rw [if_pos hk]
      have hkc : k ≠ c' := by rw [hk]; exact fun he => hne he.symm
      have hcons : Row.cell ((k, w) :: rest) c' = Row.cell rest c' := by
        show (if k = c' then w else Row.cell rest c') = Row.cell rest c'
        rw [if_neg hkc]
      rw [hcons]
    · rw [if_neg hk]
      unfold Row.cell
      by_cases hk2 : k = c'
      · rw [if_pos hk2, if_pos hk2]
      · rw [if_neg hk2, if_neg hk2]
        exact ih

/-- `dropCell` removes exactly the first occurrence of the column. -/
theorem keys_dropCell (c : String) :
    ∀ (r : Row), (Row.dropCell c r).map Prod.fst = (r.map Prod.fst).erase c := by
  intro r
  induction r with
  | nil => rfl
  | cons p rest ih =>
    rcases p with ⟨k, w⟩
    unfold Row.dropCell
    by_cases hk : k = c
    · rw [if_pos hk]
      subst hk
      simp only [List.map_cons, List.erase_cons_head]
    · rw [if_neg hk]
      simp only [List.map_cons, List.erase_cons, beq_iff_eq, if_neg hk, ih]

/-- `getD` through `map`, in range. -/
theorem getD_map_lt (g : Row → Row) (l : List Row) (i : ℕ) (h : i < l.length) :
    (l.map g).getD i [] = g (l.getD i []) := by
  rw [List.getD_eq_getElem?_getD, List.getD_eq_getElem?_getD]
  rw [List.getElem?_map]
  rw [List.getElem?_eq_getElem h]
  simp

/-- An in-range `getD` is a member. -/
theorem getD_mem_of_lt (l : List Row) (i : ℕ) (h : i < l.length) :
    l.getD i [] ∈ l := by
  rw [List.getD_eq_getElem?_getD, List.getElem?_eq_getElem h]
  exact List.getElem_mem h

namespace Cleaning

/-- `applyCells` succeeds when the cleaner returns normally on every
cell of the column, and then rewrites the column pointwise. -/
theorem applyCells_ok_of (f : PyVal → PyResult) (c : String) :
    ∀ (rows : List Row), (∀ r ∈ rows, (f (Row.cell r c)).isOk = true) →
      applyCells f c rows =
        .ok (rows.map (fun r => Row.setCell c (okValue (f (Row.cell r c))) r)) := by
  intro rows
  induction rows with
  | nil => intro _; rfl
  | cons r rs ih =>
    intro h
    have hr := h r (List.mem_cons_self _ _)
    unfold applyCells
    cases hf : f (Row.cell r c) with
    | exn e => rw [hf] at hr; simp [PyResult.isOk] at hr
    | ok v =>
      rw [ih (fun x hx => h x (List.mem_cons_of_mem _ hx))]
      simp [Except.map, okValue, hf]

/-- Conversely, a successful `applyCells` had every cell return
normally and rewrote the column pointwise. -/
theorem applyCells_ok_elim (f : PyVal → PyResult) (c : String) :
    ∀ (rows rows' : List Row), applyCells f c rows = .ok rows' →
      (∀ r ∈ rows, (f (Row.cell r c)).isOk = true) ∧
      rows' = rows.map (fun r => Row.setCell c (okValue (f (Row.cell r c))) r) := by
  intro rows
  induction rows with
  | nil =>
    intro rows' h
    simp only [applyCells] at h
    cases h
    exact ⟨by intro r hr; simp at hr, rfl⟩
  | cons r rs ih =>
    intro rows' h
    unfold applyCells at h
    cases hf : f (Row.cell r c) with
    | exn e => rw [hf] at h; simp at h
    | ok v =>
      rw [hf] at h
      cases hrec : applyCells f c rs with
      | error e => rw [hrec] at h; simp [Except.map] at h
      | ok rs' =>
        rw [hrec] at h
        simp only [Except.map] at h
        cases h
        rcases ih rs' hrec with ⟨hall, hmap⟩
        constructor
        · intro x hx
          rcases List.mem_cons.mp hx with rfl | hx2
          · rw [hf]; rfl
          · exact hall x hx2
        · simp only [List.map_cons, hmap, hf, okValue]

/-- A guarded step on an absent column is the identity. -/
theorem cleanStep_absent (c : String) (f : PyVal → PyResult) (df : DataFrame)
    (h : c ∉ df.cols) : cleanStep c f df = .ok df := by
  unfold cleanStep
  rw [if_neg h]

/-- Anatomy of a successful guarded step: columns unchanged, and either
the column was absent (frame unchanged) or present with every cell
cleaned normally and the column rewritten pointwise. -/
theorem cleanStep_elim (c : String) (f : PyVal → PyResult) (df df' : DataFrame)
    (h : cleanStep c f df = .ok df') :
    df'.cols = df.cols ∧
    ((c ∉ df.cols ∧ df' = df) ∨
      (c ∈ df.cols ∧ (∀ r ∈ df.rows, (f (Row.cell r c)).isOk = true) ∧
        df'.rows = df.rows.map (fun r => Row.setCell c (okValue (f (Row.cell r c))) r))) := by
  unfold cleanStep at h
  by_cases hc : c ∈ df.cols
  · rw [if_pos hc] at h
    cases ha : applyCells f c df.rows with
    | error e => rw [ha] at h; simp [Except.map] at h
    | ok rows' =>
      rw [ha] at h
      simp only [Except.map] at h
      cases h
      rcases applyCells_ok_elim f c df.rows rows' ha with ⟨hall, hmap⟩
      exact ⟨rfl, Or.inr ⟨hc, hall, hmap⟩⟩
  · rw [if_neg hc] at h
    cases h
    exact ⟨rfl, Or.inl ⟨hc, rfl⟩⟩

/-- Cells in other columns survive one guarded step. -/
theorem cleanStep_cell_ne (c : String) (f : PyVal → PyResult) (df df' : DataFrame)
    (h : cleanStep c f df = .ok df') (i : ℕ) (hi : i < df.rows.length)
    (c' : String) (hne : c' ≠ c) :
    Row.cell (df'.rows.getD i []) c' = Row.cell (df.rows.getD i []) c' := by
  rcases (cleanStep_elim c f df df' h).2 with ⟨_, rfl⟩ | ⟨_, _, hmap⟩
  · rfl
  · rw [hmap, getD_map_lt _ _ _ hi]
    exact cell_setCell_ne c _ c' hne _

/-- One guarded step keeps the row count. -/
theorem cleanStep_length (c : String) (f : PyVal → PyResult) (df df' : DataFrame)
    (h : cleanStep c f df = .ok df') : df'.rows.length = df.rows.length := by
  rcases (cleanStep_elim c f df df' h).2 with ⟨_, rfl⟩ | ⟨_, _, hmap⟩
  · rfl
  · rw [hmap, List.length_map]

/-- The cleaned column's cell after one guarded step, when present. -/
theorem cleanStep_cell_self (c : String) (f : PyVal → PyResult) (df df' : DataFrame)
    (h : cleanStep c f df = .ok df') (hc : c ∈ df.cols) (hwf : df.Wf)
    (i : ℕ) (hi : i < df.rows.length) :
    Row.cell (df'.rows.getD i []) c = okValue (f (Row.cell (df.rows.getD i []) c)) := by
  rcases (cleanStep_elim c f df df' h).2 with ⟨habs, rfl⟩ | ⟨_, _, hmap⟩
  · exact absurd hc habs
  · rw [hmap, getD_map_lt _ _ _ hi]
    apply cell_setCell_self
    rw [hasCol_iff_mem_keys]
    rw [hwf _ (getD_mem_of_lt _ _ hi)]
    exact hc

/-- One guarded step preserves well-formedness. -/
theorem cleanStep_wf (c : String) (f : PyVal → PyResult) (df df' : DataFrame)
    (h : cleanStep c f df = .ok df') (hwf : df.Wf) : df'.Wf := by
  rcases cleanStep_elim c f df df' h with ⟨hcols, hcase⟩
  rcases hcase with ⟨_, rfl⟩ | ⟨_, _, hmap⟩
  · exact hwf
  · intro r hr
    rw [hmap] at hr
    rcases List.mem_map.mp hr with ⟨r0, hr0, rfl⟩
    rw [hcols, keys_setCell]
    exact hwf r0 hr0

/-- A guarded step with a never-raising cleaner always succeeds. -/
theorem cleanStep_total_ok (c : String) (f : PyVal → PyResult) (df : DataFrame)
    (h : ∀ v, (f v).isOk = true) :
    ∃ df', cleanStep c f df = .ok df' := by
  by_cases hc : c ∈ df.cols
  · unfold cleanStep
    rw [if_pos hc]
    rw [applyCells_ok_of f c df.rows (fun r _ => h _)]
    exact ⟨_, rfl⟩
  · exact ⟨df, cleanStep_absent c f df hc⟩

end Cleaning

/-- Destructuring a successful `Except` bind. -/
theorem except_bind_ok {ε α β : Type} (x : Except ε α) (f : α → Except ε β) (b : β) :
    (x >>= f) = .ok b ↔ ∃ a, x = .ok a ∧ f a = .ok b := by
  cases x with
  | error e =>
    constructor
    · intro h
      exact absurd h (by simp [Bind.bind, Except.bind])
    · rintro ⟨a, ha, _⟩
      exact absurd ha (by simp)
  | ok a =>
    constructor
    · intro h
      exact ⟨a, rfl, h⟩
    · rintro ⟨a2, ha, hf⟩
      cases ha
      exact hf

/-- `clean_housing_data` is the guarded-step chain over its column and
cleaner list, started from the agent-dropped frame. -/
theorem clean_housing_data_eq_chain (currentYear : ℤ) (df : DataFrame) :
    Cleaning.clean_housing_data currentYear df =
      (Cleaning.cleaningSteps currentYear).foldlM
        (fun d p => Cleaning.cleanStep p.1 p.2 d)
        (if "agent" ∈ df.cols then Cleaning.dropColumn "agent" df else df) := by
  simp only [Cleaning.cleaningSteps, List.foldlM_cons, List.foldlM_nil]
  rfl

/-- A successful chain of guarded steps keeps the columns and row
count, preserves well-formedness, and rewrites every cell by folding
the matching steps over it. -/
theorem cleanChain_elim (steps : List (String × (PyVal → PyResult))) :
    ∀ (d0 dout : DataFrame), d0.Wf →
      steps.foldlM (fun d p => Cleaning.cleanStep p.1 p.2 d) d0 = .ok dout →
      dout.cols = d0.cols ∧ dout.rows.length = d0.rows.length ∧ dout.Wf ∧
      (∀ i, i < d0.rows.length → ∀ c : String,
        Row.cell (dout.rows.getD i []) c =
          steps.foldl
            (fun v p => if p.1 = c ∧ c ∈ d0.cols then Cleaning.okValue (p.2 v) else v)
            (Row.cell (d0.rows.getD i []) c)) := by
  induction steps with
  | nil =>
    intro d0 dout hwf h
    simp only [List.foldlM_nil] at h
    cases h
    exact ⟨rfl, rfl, hwf, fun i _ c => by simp⟩
  | cons p rest ih =>
    intro d0 dout hwf h
    rw [List.foldlM_cons] at h
    obtain ⟨d1, h1, hrest⟩ := (except_bind_ok _ _ _).mp h
    have e1 := Cleaning.cleanStep_elim p.1 p.2 d0 d1 h1
    have hlen1 := Cleaning.cleanStep_length p.1 p.2 d0 d1 h1
    have hwf1 := Cleaning.cleanStep_wf p.1 p.2 d0 d1 h1 hwf
    obtain ⟨hcols, hlen, hwfo, hcells⟩ := ih d1 dout hwf1 hrest
    refine ⟨hcols.trans e1.1, by rw [hlen, hlen1], hwfo, ?_⟩
    intro i hi c
    have hi1 : i < d1.rows.length := by rw [hlen1]; exact hi
    rw [hcells i hi1 c]
    simp only [List.foldl_cons]
    have hstart : Row.cell (d1.rows.getD i []) c =
        (if p.1 = c ∧ c ∈ d0.cols then Cleaning.okValue (p.2 (Row.cell (d0.rows.getD i []) c))
          else Row.cell (d0.rows.getD i []) c) := by
      by_cases hpc : p.1 = c ∧ c ∈ d0.cols
      · rw [if_pos hpc]
        rcases hpc with ⟨hp1, hmem⟩
        subst hp1
        exact Cleaning.cleanStep_cell_self p.1 p.2 d0 d1 h1 hmem hwf i hi
      · rw [if_neg hpc]
        by_cases hp1 : p.1 = c
        · subst hp1
          have hmem : p.1 ∉ d0.cols := fun hmem => hpc ⟨rfl, hmem⟩
          rcases e1.2 with ⟨_, rfl⟩ | ⟨hin, _, _⟩
          · rfl
          · exact absurd hin hmem
        · exact Cleaning.cleanStep_cell_ne p.1 p.2 d0 d1 h1 i hi c
            (fun he => hp1 he.symm)
    rw [hstart]
    rcases e1 with ⟨ecols, _⟩
    rw [ecols]

/-- Folding the concrete step list over one cell is exactly the
column's cleaner (or the identity for unlisted columns). -/
theorem foldl_steps_eq_cleanedCell (currentYear : ℤ) (cols : List String) (c : String)
    (hmem : c ∈ cols) (v : PyVal) :
    (Cleaning.cleaningSteps currentYear).foldl
      (fun v p => if p.1 = c ∧ c ∈ cols then Cleaning.okValue (p.2 v) else v) v =
      Cleaning.cleanedCell currentYear c v := by
  by_cases h1 : c = "price"
  · subst h1; simp [Cleaning.cleaningSteps, Cleaning.cleanedCell, Cleaning.fieldCleaner, hmem]
  by_cases h2 : c = "beds"
  · subst h2; simp [Cleaning.cleaningSteps, Cleaning.cleanedCell, Cleaning.fieldCleaner, hmem]
  by_cases h3 : c = "baths"
  · subst h3; simp [Cleaning.cleaningSteps, Cleaning.cleanedCell, Cleaning.fieldCleaner, hmem]
  by_cases h4 : c = "sqft"
  · subst h4; simp [Cleaning.cleaningSteps, Cleaning.cleanedCell, Cleaning.fieldCleaner, hmem]
  by_cases h5 : c = "year_built"
  · subst h5; simp [Cleaning.cleaningSteps, Cleaning.cleanedCell, Cleaning.fieldCleaner, hmem]
  by_cases h6 : c = "lot_size"
  · subst h6; simp [Cleaning.cleaningSteps, Cleaning.cleanedCell, Cleaning.fieldCleaner, hmem]
  by_cases h7 : c = "garage"
  · subst h7; simp [Cleaning.cleaningSteps, Cleaning.cleanedCell, Cleaning.fieldCleaner, hmem]
  by_cases h8 : c = "address"
  · subst h8; simp [Cleaning.cleaningSteps, Cleaning.cleanedCell, Cleaning.fieldCleaner, hmem]
  by_cases h9 : c = "city"
  · subst h9; simp [Cleaning.cleaningSteps, Cleaning.cleanedCell, Cleaning.fieldCleaner, hmem]
  · have g1 : ¬("price" : String) = c := fun he => h1 he.symm
    have g2 : ¬("beds" : String) = c := fun he => h2 he.symm
    have g3 : ¬("baths" : String) = c := fun he => h3 he.symm
    have g4 : ¬("sqft" : String) = c := fun he => h4 he.symm
    have g5 : ¬("year_built" : String) = c := fun he => h5 he.symm
    have g6 : ¬("lot_size" : String) = c := fun he => h6 he.symm
    have g7 : ¬("garage" : String) = c := fun he => h7 he.symm
    have g8 : ¬("address" : String) = c := fun he => h8 he.symm
    have g9 : ¬("city" : String) = c := fun he => h9 he.symm
    simp [Cleaning.cleaningSteps, Cleaning.cleanedCell, Cleaning.fieldCleaner,
      h1, h2, h3, h4, h5, h6, h7, h8, h9, g1, g2, g3, g4, g5, g6, g7, g8, g9]

/-- `clean_price` never raises. -/
theorem clean_price_isOk (v : PyVal) : (Cleaning.clean_price v).isOk = true := by
  unfold Cleaning.clean_price
  split
  · rfl
  · dsimp only
    split <;> rfl

/-- `clean_numeric_field` never raises. -/
theorem clean_numeric_field_isOk (v : PyVal) : (Cleaning.clean_numeric_field v).isOk = true := by
  unfold Cleaning.clean_numeric_field
  split
  · rfl
  · dsimp only
    split <;> rfl

/-- `clean_year_built` never raises. -/
theorem clean_year_built_isOk (currentYear : ℤ) (v : PyVal) :
    (Cleaning.clean_year_built currentYear v).isOk = true := by
  unfold Cleaning.clean_year_built
  split
  · rfl
  · split
    · rfl
    · split <;> rfl

/-- `clean_garage` never raises. -/
theorem clean_garage_isOk (v : PyVal) : (Cleaning.clean_garage v).isOk = true := by
  unfold Cleaning.clean_garage
  split
  · rfl
  · split <;> rfl

/-- `clean_address` never raises. -/
theorem clean_address_isOk (v : PyVal) : (Cleaning.clean_address v).isOk = true := by
  unfold Cleaning.clean_address
  split <;> rfl

/-- `clean_city` never raises. -/
theorem clean_city_isOk (v : PyVal) : (Cleaning.clean_city v).isOk = true := by
  unfold Cleaning.clean_city
  split <;> rfl

/-- `dropColumn` preserves well-formedness. -/
theorem dropColumn_wf (c : String) (df : DataFrame) (hwf : df.Wf) :
    (Cleaning.dropColumn c df).Wf := by
  intro r hr
  rcases List.mem_map.mp hr with ⟨r0, hr0, rfl⟩
  show (Row.dropCell c r0).map Prod.fst = df.cols.erase c
  rw [keys_dropCell, hwf r0 hr0]

/-- `dropColumn` leaves other columns' cells unchanged. -/
theorem dropColumn_cell_ne (c : String) (df : DataFrame) (i : ℕ)
    (hi : i < df.rows.length) (c' : String) (hne : c' ≠ c) :
    Row.cell ((Cleaning.dropColumn c df).rows.getD i []) c' =
      Row.cell (df.rows.getD i []) c' := by
  show Row.cell ((df.rows.map (Row.dropCell c)).getD i []) c' = _
  rw [getD_map_lt _ _ _ hi]
  exact cell_dropCell_ne c c' hne _

unseal Rat.add Rat.mul Rat.inv in
/-- C6: on a well-formed frame with distinct column names,
`clean_housing_data` (a pure function of its input — the embedding
works on the copy the source takes) returns, when it succeeds, a frame
whose columns are the input's with `agent` dropped when present, with
the same number of rows, in which every surviving column's cell is the
input cell passed through that column's field cleaner when the column
is one of the nine cleaned ones and is untouched otherwise; when the
`lot_size` column (the only cleaner that can raise) is absent — in
particular whenever any listed column is absent — the function
succeeds, never erring on absent columns.  On the spec's example frame
(string `price`/`beds`/`baths` plus an `agent` column) it yields
`price.iloc[0] = 100000.0` and `beds.iloc[0] = 3.0`. -/
theorem clean_housing_data_columnwise (currentYear : ℤ) (df : DataFrame)
    (hwf : df.Wf) (hnodup : df.cols.Nodup) :
    (∀ out, Cleaning.clean_housing_data currentYear df = .ok out →
      out.cols = (if "agent" ∈ df.cols then df.cols.erase "agent" else df.cols) ∧
      out.rows.length = df.rows.length ∧
      (∀ i, i < df.rows.length → ∀ c, c ∈ out.cols →
        Row.cell (out.rows.getD i []) c =
          Cleaning.cleanedCell currentYear c (Row.cell (df.rows.getD i []) c))) ∧
    ("lot_size" ∉ df.cols → ∃ o, Cleaning.clean_housing_data currentYear df = .ok o) ∧
    Cleaning.clean_housing_data 2026 dfRawDemo = .ok dfRawDemoClean := by
  set d0 := if "agent" ∈ df.cols then Cleaning.dropColumn "agent" df else df with hd0
  have hd0cols : d0.cols = (if "agent" ∈ df.cols then df.cols.erase "agent" else df.cols) := by
    rw [hd0]
    split <;> rfl
  have hd0len : d0.rows.length = df.rows.length := by
    rw [hd0]
    split
    · exact List.length_map _ _
    · rfl
  have hd0wf : d0.Wf := by
    rw [hd0]
    split
    · exact dropColumn_wf "agent" df hwf
    · exact hwf
  have hd0cell : ∀ i, i < df.rows.length → ∀ c, c ≠ "agent" →
      Row.cell (d0.rows.getD i []) c = Row.cell (df.rows.getD i []) c := by
    intro i hi c hne
    rw [hd0]
    split
    · exact dropColumn_cell_ne "agent" df i hi c hne
    · rfl
  have hchain : Cleaning.clean_housing_data currentYear df =
      (Cleaning.cleaningSteps currentYear).foldlM
        (fun d p => Cleaning.cleanStep p.1 p.2 d) d0 := by
    rw [hd0]
    exact clean_housing_data_eq_chain currentYear df
  refine ⟨?_, ?_, by decide⟩
  · intro out h
    rw [hchain] at h
    obtain ⟨hcols, hlen, _, hcells⟩ :=
      cleanChain_elim (Cleaning.cleaningSteps currentYear) d0 out hd0wf h
    have hagent : ∀ c, c ∈ out.cols → c ≠ "agent" := by
      intro c hc he
      subst he
      rw [hcols, hd0cols] at hc
      by_cases hin : "agent" ∈ df.cols
      · rw [if_pos hin] at hc
        exact (List.Nodup.not_mem_erase hnodup) hc
      · rw [if_neg hin] at hc
        exact hin hc
    refine ⟨hcols.trans hd0cols, hlen.trans hd0len, ?_⟩
    intro i hi c hc
    have hi0 : i < d0.rows.length := by rw [hd0len]; exact hi
    rw [hcells i hi0 c]
    have hmem0 : c ∈ d0.cols := by rw [← hcols]; exact hc
    rw [foldl_steps_eq_cleanedCell currentYear d0.cols c hmem0]
    rw [hd0cell i hi c (hagent c hc)]
  · intro hnl
    have hnl0 : "lot_size" ∉ d0.cols := by
      rw [hd0]
      split
      · show "lot_size" ∉ df.cols.erase "agent"
        intro hmem
        exact hnl (List.mem_of_mem_erase hmem)
      · exact hnl
    obtain ⟨d1, h1⟩ := Cleaning.cleanStep_total_ok "price" Cleaning.clean_price d0 clean_price_isOk
    have c1 : d1.cols = d0.cols := (Cleaning.cleanStep_elim _ _ _ _ h1).1
    obtain ⟨d2, h2⟩ := Cleaning.cleanStep_total_ok "beds" Cleaning.clean_numeric_field d1 clean_numeric_field_isOk
    have c2 : d2.cols = d1.cols := (Cleaning.cleanStep_elim _ _ _ _ h2).1
    obtain ⟨d3, h3⟩ := Cleaning.cleanStep_total_ok "baths" Cleaning.clean_numeric_field d2 clean_numeric_field_isOk
    have c3 : d3.cols = d2.cols := (Cleaning.cleanStep_elim _ _ _ _ h3).1
    obtain ⟨d4, h4⟩ := Cleaning.cleanStep_total_ok "sqft" Cleaning.clean_numeric_field d3 clean_numeric_field_isOk
    have c4 : d4.cols = d3.cols := (Cleaning.cleanStep_elim _ _ _ _ h4).1
    obtain ⟨d5, h5⟩ := Cleaning.cleanStep_total_ok "year_built" (Cleaning.clean_year_built currentYear) d4 (clean_year_built_isOk currentYear)
    have c5 : d5.cols = d4.cols := (Cleaning.cleanStep_elim _ _ _ _ h5).1
    have h6 : Cleaning.cleanStep "lot_size" Cleaning.clean_lot_size d5 = .ok d5 :=
      Cleaning.cleanStep_absent _ _ _ (by rw [c5, c4, c3, c2, c1]; exact hnl0)
    obtain ⟨d7, h7⟩ := Cleaning.cleanStep_total_ok "garage" Cleaning.clean_garage d5 clean_garage_isOk
    obtain ⟨d8, h8⟩ := Cleaning.cleanStep_total_ok "address" Cleaning.clean_address d7 clean_address_isOk
    obtain ⟨d9, h9⟩ := Cleaning.cleanStep_total_ok "city" Cleaning.clean_city d8 clean_city_isOk
    refine ⟨d9, ?_⟩
    rw [hchain]
    simp only [Cleaning.cleaningSteps, List.foldlM_cons, List.foldlM_nil]
    exact (except_bind_ok _ _ _).mpr ⟨d1, h1,
      (except_bind_ok _ _ _).mpr ⟨d2, h2,
        (except_bind_ok _ _ _).mpr ⟨d3, h3,
          (except_bind_ok _ _ _).mpr ⟨d4, h4,
            (except_bind_ok _ _ _).mpr ⟨d5, h5,
              (except_bind_ok _ _ _).mpr ⟨d5, h6,
                (except_bind_ok _ _ _).mpr ⟨d7, h7,
                  (except_bind_ok _ _ _).mpr ⟨d8, h8,
                    (except_bind_ok _ _ _).mpr ⟨d9, h9, rfl⟩⟩⟩⟩⟩⟩⟩⟩⟩

/-- C6 witness: on the spec's concrete raw frame — which has no
`lot_size` column — `clean_housing_data` succeeds. -/
theorem clean_housing_data_columnwise_witness :
    ∃ o, Cleaning.clean_housing_data 2026 dfRawDemo = .ok o :=
  (clean_housing_data_columnwise 2026 dfRawDemo (by decide) (by decide)).2.1 (by decide)

/-- Reducing a successful `Except` bind. -/
theorem except_ok_bind {ε α β : Type} (a : α) (f : α → Except ε β) :
    (Except.ok a >>= f) = f a := rfl

/-- C3: `get_cleaned_data` pipes the raw table through
`clean_housing_data`, then `remove_invalid_entries`, then
`remove_duplicates` (on `mls`), in that order; `output = "pandas"`
returns the clean table, `output = "csv"` writes it to
`utah_housing_data_cleaned.csv` and returns the confirmation message,
and every other `output` value fails with the Invalid-input
`ValueError` — returning no table. -/
theorem get_cleaned_data_modes (currentYear : ℤ) (df_raw d : DataFrame)
    (h : Cleaning.clean_housing_data currentYear df_raw = .ok d) :
    (Cleaning.get_cleaned_data currentYear df_raw "pandas" =
      .ok (.table (Cleaning.remove_duplicates ["mls"] (Cleaning.remove_invalid_entries d)))) ∧
    (Cleaning.get_cleaned_data currentYear df_raw "csv" =
      .ok (.savedCsv "utah_housing_data_cleaned.csv"
        (Cleaning.remove_duplicates ["mls"] (Cleaning.remove_invalid_entries d))
        "Data saved to utah_housing_data_cleaned.csv")) ∧
    (∀ output : String, output ≠ "pandas" → output ≠ "csv" →
      Cleaning.get_cleaned_data currentYear df_raw output =
        .error "ValueError: Invalid output option") := by
  refine ⟨?_, ?_, ?_⟩
  · unfold Cleaning.get_cleaned_data
    rw [h, except_ok_bind]
    dsimp only
    rw [if_pos rfl]
    rfl
  · unfold Cleaning.get_cleaned_data
    rw [h, except_ok_bind]
    dsimp only
    rw [if_neg (by decide : ¬(("csv" : String) = "pandas")), if_pos rfl]
    rfl
  · intro output h1 h2
    unfold Cleaning.get_cleaned_data
    rw [h, except_ok_bind]
    dsimp only
    rw [if_neg h1, if_neg h2]
    rfl

unseal Rat.add Rat.mul Rat.inv in
/-- C3 witness: on the concrete raw frame, `get_cleaned_data` with the
invalid output choice `"bogus"` fails with the Invalid-input error. -/
theorem get_cleaned_data_modes_witness :
    Cleaning.get_cleaned_data 2026 dfRawDemo "bogus" =
      .error "ValueError: Invalid output option" :=
  (get_cleaned_data_modes 2026 dfRawDemo dfRawDemoClean (by decide)).2.2 "bogus"
    (by decide) (by decide)
